import Mathlib

/-!
Verification of the serverless task-store module
(`task-manager/netlify/functions/taskStore.js`, the `storageMode` variant)
and its HTTP handler (`task-manager/netlify/functions/tasks.js`).

The JavaScript module keeps process-wide mutable state: a blob-store handle
(`store`), a `connectAttempted` flag, a `storageMode` string
(`"uninitialized" | "blob" | "remote" | "memory"`), the lazily created
global fallback container (`globalThis.__taskBudFallbackStore__`), and the
id generator (`nanoid`).  We embed this state as an explicit record and the
exported functions as state-passing functions.  Fallible external calls
(blob `get`/`setJSON`, remote `fetch`) are modelled by explicit Boolean
success flags; a raised exception becomes `Except.error ()` together with
the state at the throw point.  The id generator is modelled as a supply
`gen : Nat → String` with a counter in the state.  The remote upstream
service is not part of this repository; its visible behaviour is modelled
from the spec's contract (see `remote` field and the remote branches).
-/

namespace TaskStore

/-- A task record `{id, title, isDone}`. -/
structure Task where
  id : String
  title : String
  isDone : Bool
deriving DecidableEq, Repr

/-- The process-wide `storageMode` variable:
`"uninitialized" | "blob" | "remote" | "memory"`. -/
inductive StorageMode
  | uninitialized
  | blob
  | remote
  | memory
deriving DecidableEq, Repr

/-- The process-wide mutable state of `taskStore.js` together with the
contents of the external stores it talks to.

* `store`        — whether the module-level `store` handle is set (truthy);
* `connectAttempted` — the `connectAttempted` flag;
* `storageMode`  — the `storageMode` variable;
* `blobData`     — the durable blob store's content under `STORE_KEY`:
  `some l` models a stored JSON array of tasks, `none` models a missing key
  or a non-array value (the code's `!Array.isArray(existing)` test);
* `fallback`     — `globalThis.__taskBudFallbackStore__`: `none` when the
  container has not been created, `some l` for a container holding `l`;
* `remote`       — the task list held by the remote upstream service.
  Modelled from the spec: the upstream implements the same CRUD contract
  (GET returns `{taskList}`, POST creates and returns `{task}`, PATCH and
  DELETE target `/{id}`, PUT replaces the whole list); its code is not in
  this repository;
* `ctr`          — how many ids the generator supply has handed out. -/
structure ProcState where
  store : Bool
  connectAttempted : Bool
  storageMode : StorageMode
  blobData : Option (List Task)
  fallback : Option (List Task)
  remote : List Task
  ctr : Nat
deriving DecidableEq, Repr

/-- `buildDefaultTasks`: the fixed three-task seed; each entry draws a
fresh id from the supply.  Returns the seed list and the advanced
counter. -/
def buildDefaultTasks (gen : Nat → String) (c : Nat) : List Task × Nat :=
  ([⟨gen c, "walk the dog", false⟩,
    ⟨gen (c + 1), "wash dishes", false⟩,
    ⟨gen (c + 2), "drink coffee", true⟩], c + 3)

/-- `ensureFallbackContainer`: creates the global fallback container with
the default seed when it does not exist yet, otherwise leaves it alone. -/
def ensureFallbackContainer (gen : Nat → String) (s : ProcState) : ProcState :=
  match s.fallback with
  | some _ => s
  | none =>
    let seeded := buildDefaultTasks gen s.ctr
    { s with fallback := some seeded.1, ctr := seeded.2 }

/-- `useRemoteStorage`: if a remote endpoint is configured
(`REMOTE_BASE_URL` non-empty, modelled by `remoteCfg`), switch
`storageMode` to `"remote"` and report `true`; otherwise report `false`. -/
def useRemoteStorage (remoteCfg : Bool) (s : ProcState) : Bool × ProcState :=
  if remoteCfg then (true, { s with storageMode := StorageMode.remote })
  else (false, s)

/-- The shared demotion step `if (!useRemoteStorage()) { storageMode =
"memory"; ensureFallbackContainer(); }` used both in the non-platform
branch and in `initializeStore`'s catch. -/
def demoteFromBlob (gen : Nat → String) (remoteCfg : Bool) (s : ProcState) : ProcState :=
  let r := useRemoteStorage remoteCfg s
  if r.1 then r.2
  else ensureFallbackContainer gen { r.2 with storageMode := StorageMode.memory }

/-- `initializeStore(event)`.  `netlify` models `process.env.NETLIFY`,
`remoteCfg` models a non-empty `REMOTE_BASE_URL`.  `gOk` models success of
`getStore` and `store.get` (their exceptions land in the same catch), and
`sOk` success of the seeding `store.setJSON`.  All exceptions are caught
inside the function, so it always returns a state.  `connectLambda`
failures are caught and ignored by the code, so only the
`connectAttempted := true` assignment is observable. -/
def initializeStore (gen : Nat → String) (netlify remoteCfg gOk sOk : Bool)
    (s : ProcState) : ProcState :=
  if s.store then s
  else if !netlify then demoteFromBlob gen remoteCfg s
  else
    let s1 := { s with connectAttempted := true }
    if !gOk then demoteFromBlob gen remoteCfg { s1 with store := false }
    else
      let s2 := { s1 with store := true }
      match s2.blobData with
      | some _ => { s2 with storageMode := StorageMode.blob }
      | none =>
        let seeded := buildDefaultTasks gen s2.ctr
        if !sOk then demoteFromBlob gen remoteCfg { s2 with ctr := seeded.2, store := false }
        else { s2 with blobData := some seeded.1, ctr := seeded.2,
                       storageMode := StorageMode.blob }

/-- `readTasks()`.  `netOk` models success of the remote GET, `gOk` of the
blob `store.get`, `sOk` of the re-seeding `store.setJSON`.  Returns the
read list or the propagated exception, with the state at that point. -/
def readTasks (gen : Nat → String) (netOk gOk sOk : Bool) (s : ProcState) :
    Except Unit (List Task) × ProcState :=
  if s.storageMode = StorageMode.remote then
    if netOk then (Except.ok s.remote, s) else (Except.error (), s)
  else if s.storageMode = StorageMode.memory ∨ s.store = false then
    let s1 := ensureFallbackContainer gen s
    (Except.ok (s1.fallback.getD []), s1)
  else
    if !gOk then (Except.error (), s)
    else
      match s.blobData with
      | some l => (Except.ok l, s)
      | none =>
        let seeded := buildDefaultTasks gen s.ctr
        if !sOk then (Except.error (), { s with ctr := seeded.2 })
        else (Except.ok seeded.1, { s with blobData := some seeded.1, ctr := seeded.2 })

/-- `writeTasks(tasks)`.  `netOk` models success of the remote PUT, `sOk`
of the blob `store.setJSON`. -/
def writeTasks (gen : Nat → String) (netOk sOk : Bool) (tasks : List Task)
    (s : ProcState) : Except Unit Unit × ProcState :=
  if s.storageMode = StorageMode.remote then
    if netOk then (Except.ok (), { s with remote := tasks })
    else (Except.error (), s)
  else if s.storageMode = StorageMode.memory ∨ s.store = false then
    let s1 := ensureFallbackContainer gen s
    (Except.ok (), { s1 with fallback := some tasks })
  else
    if sOk then (Except.ok (), { s with blobData := some tasks })
    else (Except.error (), s)

/-- `getTasks()` — the `list` operation. -/
def getTasks (gen : Nat → String) (netOk gOk sOk : Bool) (s : ProcState) :
    Except Unit (List Task) × ProcState :=
  readTasks gen netOk gOk sOk s

/-- `createTask(title)`.  Reads the current list, draws a fresh id for the
local `newTask`, and in remote mode POSTs the title upstream.  Modelled
from the spec for the remote branch: a successful upstream POST appends a
server-assigned fresh task and returns it in `{task}` (so the
`data?.task` fall-through to local logic does not arise). -/
def createTask (gen : Nat → String) (netOk gOk sOk : Bool) (title : String)
    (s : ProcState) : Except Unit Task × ProcState :=
  match readTasks gen netOk gOk sOk s with
  | (Except.error _, s1) => (Except.error (), s1)
  | (Except.ok tasks, s1) =>
    let newTask : Task := ⟨gen s1.ctr, title, false⟩
    let s2 := { s1 with ctr := s1.ctr + 1 }
    if s2.storageMode = StorageMode.remote then
      if netOk then
        let upTask : Task := ⟨gen s2.ctr, title, false⟩
        (Except.ok upTask,
         { s2 with remote := s2.remote ++ [upTask], ctr := s2.ctr + 1 })
      else (Except.error (), s2)
    else
      match writeTasks gen netOk sOk (tasks ++ [newTask]) s2 with
      | (Except.error _, s3) => (Except.error (), s3)
      | (Except.ok _, s3) => (Except.ok newTask, s3)

/-- The per-record update applied by `updateTask`'s `tasks.map`. -/
def setDoneFn (taskId : String) (isDone : Bool) (t : Task) : Task :=
  if t.id = taskId then { t with isDone := isDone } else t

/-- `updateTask(taskId, isDone)` — the `setDone` operation.  Always reads
first; in remote mode PATCHes upstream (modelled from the spec: the
upstream applies the same update-by-id, a no-op when the id is absent),
otherwise maps over the list and writes it back. -/
def updateTask (gen : Nat → String) (netOk gOk sOk : Bool)
    (taskId : String) (isDone : Bool) (s : ProcState) :
    Except Unit Bool × ProcState :=
  match readTasks gen netOk gOk sOk s with
  | (Except.error _, s1) => (Except.error (), s1)
  | (Except.ok tasks, s1) =>
    if s1.storageMode = StorageMode.remote then
      if netOk then
        (Except.ok true, { s1 with remote := s1.remote.map (setDoneFn taskId isDone) })
      else (Except.error (), s1)
    else
      let updated := tasks.map (setDoneFn taskId isDone)
      match writeTasks gen netOk sOk updated s1 with
      | (Except.error _, s2) => (Except.error (), s2)
      | (Except.ok _, s2) => (Except.ok true, s2)

/-- `removeTask(taskId)` — the `remove` operation.  In remote mode it
DELETEs upstream without reading first (modelled from the spec: the
upstream applies the same delete-by-id, a no-op when the id is absent);
otherwise reads, filters and writes back. -/
def removeTask (gen : Nat → String) (netOk gOk sOk : Bool) (taskId : String)
    (s : ProcState) : Except Unit Bool × ProcState :=
  if s.storageMode = StorageMode.remote then
    if netOk then
      (Except.ok true, { s with remote := s.remote.filter (fun t => t.id ≠ taskId) })
    else (Except.error (), s)
  else
    match readTasks gen netOk gOk sOk s with
    | (Except.error _, s1) => (Except.error (), s1)
    | (Except.ok tasks, s1) =>
      let updated := tasks.filter (fun t => t.id ≠ taskId)
      match writeTasks gen netOk sOk updated s1 with
      | (Except.error _, s2) => (Except.error (), s2)
      | (Except.ok _, s2) => (Except.ok true, s2)

/-- The task list an operation acts on, following `readTasks`'s dispatch:
remote list in remote mode, the fallback container when in memory mode or
without a blob handle, the blob content otherwise. -/
def activeTasks (s : ProcState) : List Task :=
  if s.storageMode = StorageMode.remote then s.remote
  else if s.storageMode = StorageMode.memory ∨ s.store = false then s.fallback.getD []
  else s.blobData.getD []

/-- Well-formed states: the invariant `initializeStore` establishes — the
handle is set exactly in blob mode, in blob mode the key holds an array,
and whenever the fallback container would be consulted it exists. -/
def WF (s : ProcState) : Prop :=
  (s.store = true ↔ s.storageMode = StorageMode.blob) ∧
  (s.storageMode = StorageMode.blob → s.blobData.isSome = true) ∧
  (s.storageMode = StorageMode.memory ∨ s.storageMode = StorageMode.uninitialized →
    s.fallback.isSome = true)

instance (s : ProcState) : Decidable (WF s) := by
  unfold WF
  infer_instance

/-- Replacing the active backend's content, following the common dispatch
of `readTasks`/`writeTasks`. -/
def setActive (s : ProcState) (ts : List Task) : ProcState :=
  if s.storageMode = StorageMode.remote then { s with remote := ts }
  else if s.storageMode = StorageMode.memory ∨ s.store = false then
    { s with fallback := some ts }
  else { s with blobData := some ts }

/-! ### The HTTP handler (`tasks.js`) -/

/-- A JSON value in the parsed request body, as far as the handler's
`typeof isDone !== "boolean"` check distinguishes them. -/
inductive JVal
  | jbool (b : Bool)
  | jstr (v : String)
  | jmissing
deriving DecidableEq, Repr

/-- The parsed request body: `title` for POST (`none` models an absent
field, which is falsy like `""`), `isDone` for PATCH. -/
structure Payload where
  title : Option String
  isDone : JVal
deriving DecidableEq, Repr

/-- The request event, with the fields the handler consults.  `body = none`
models a missing `event.body` (parsed as `{}`); `ppSplat` and `ppId` are
`event.pathParameters.splat` / `.id`; `path` is `event.path`. -/
structure HttpEvent where
  httpMethod : String
  body : Option Payload
  ppSplat : Option String
  ppId : Option String
  path : Option String
deriving DecidableEq, Repr

/-- The body of a `jsonResponse`, as far as the handler produces it. -/
inductive RespBody
  | emptyObj
  | taskList (l : List Task)
  | task (t : Task)
  | msg (m : String)
deriving DecidableEq, Repr

/-- A `jsonResponse(statusCode, body)` (headers are constant). -/
structure HttpResponse where
  statusCode : Nat
  body : RespBody
deriving DecidableEq, Repr

/-- JavaScript truthiness of an optional string: `undefined` and `""` are
falsy. -/
def strTruthy : Option String → Bool
  | none => false
  | some v => !(v = "")

/-- `extractTaskId(event)`: splat parameter first (first `/`-segment),
then the `id` parameter, then the last segment of `event.path`, else
`""`. -/
def extractTaskId (e : HttpEvent) : String :=
  if strTruthy e.ppSplat then ((e.ppSplat.getD "").splitOn "/").headD ""
  else if strTruthy e.ppId then e.ppId.getD ""
  else
    let parts := if strTruthy e.path then (e.path.getD "").splitOn "/" else []
    match parts.getLast? with
    | none => ""
    | some last => last

/-- The Netlify `handler(event)` of `tasks.js` (the full GET/POST/PATCH/
DELETE variant).  The outer `Except` models an exception escaping the
handler: only the unguarded GET branch can propagate one, the POST, PATCH
and DELETE branches catch and answer `500`. -/
def handler (gen : Nat → String) (netlify remoteCfg netOk gOk sOk : Bool)
    (e : HttpEvent) (s : ProcState) : Except Unit HttpResponse × ProcState :=
  if e.httpMethod = "OPTIONS" then (Except.ok ⟨200, RespBody.emptyObj⟩, s)
  else
    let s0 := initializeStore gen netlify remoteCfg gOk sOk s
    if e.httpMethod = "GET" then
      match getTasks gen netOk gOk sOk s0 with
      | (Except.ok l, s1) => (Except.ok ⟨200, RespBody.taskList l⟩, s1)
      | (Except.error _, s1) => (Except.error (), s1)
    else if e.httpMethod = "POST" then
      let payload := e.body.getD ⟨none, JVal.jmissing⟩
      if strTruthy payload.title then
        match createTask gen netOk gOk sOk (payload.title.getD "") s0 with
        | (Except.ok t, s1) => (Except.ok ⟨200, RespBody.task t⟩, s1)
        | (Except.error _, s1) =>
          (Except.ok ⟨500, RespBody.msg "something went wrong"⟩, s1)
      else (Except.ok ⟨400, RespBody.msg "please provide title"⟩, s0)
    else
      let taskId := extractTaskId e
      if taskId = "" then (Except.ok ⟨400, RespBody.msg "task id required"⟩, s0)
      else if e.httpMethod = "PATCH" then
        let payload := e.body.getD ⟨none, JVal.jmissing⟩
        match payload.isDone with
        | JVal.jbool b =>
          match updateTask gen netOk gOk sOk taskId b s0 with
          | (Except.ok _, s1) => (Except.ok ⟨200, RespBody.msg "task updated"⟩, s1)
          | (Except.error _, s1) =>
            (Except.ok ⟨500, RespBody.msg "something went wrong"⟩, s1)
        | _ => (Except.ok ⟨400, RespBody.msg "please provide isDone boolean"⟩, s0)
      else if e.httpMethod = "DELETE" then
        match removeTask gen netOk gOk sOk taskId s0 with
        | (Except.ok _, s1) => (Except.ok ⟨200, RespBody.msg "task removed"⟩, s1)
        | (Except.error _, s1) =>
          (Except.ok ⟨500, RespBody.msg "something went wrong"⟩, s1)
      else (Except.ok ⟨405, RespBody.msg "method not allowed"⟩, s0)

/-! ### Operation sequences -/

/-- One call into the store module, with its environment flags. -/
inductive Op
  | opInit (netlify remoteCfg gOk sOk : Bool)
  | opList (netOk gOk sOk : Bool)
  | opCreate (title : String) (netOk gOk sOk : Bool)
  | opSetDone (taskId : String) (d : Bool) (netOk gOk sOk : Bool)
  | opRemove (taskId : String) (netOk gOk sOk : Bool)
deriving DecidableEq, Repr

/-- The state reached after one call (results discarded). -/
def step (gen : Nat → String) : Op → ProcState → ProcState
  | Op.opInit n r g so, s => initializeStore gen n r g so s
  | Op.opList nk g so, s => (getTasks gen nk g so s).2
  | Op.opCreate t nk g so, s => (createTask gen nk g so t s).2
  | Op.opSetDone i d nk g so, s => (updateTask gen nk g so i d s).2
  | Op.opRemove i nk g so, s => (removeTask gen nk g so i s).2

/-- The state reached after a sequence of calls. -/
def run (gen : Nat → String) (ops : List Op) (s : ProcState) : ProcState :=
  ops.foldl (fun st op => step gen op st) s

/-- The fresh process state: nothing initialized, empty durable store,
no fallback container, empty upstream list, no ids drawn. -/
def initState : ProcState :=
  ⟨false, false, StorageMode.uninitialized, none, none, [], 0⟩

/-- The id strings of a task list, in order. -/
def idsOf (l : List Task) : List String := l.map Task.id

/-- All ids of `l` are pairwise distinct and drawn from the supply below
counter `c`. -/
def ContOk (gen : Nat → String) (c : Nat) (l : List Task) : Prop :=
  (idsOf l).Nodup ∧ ∀ x ∈ idsOf l, ∃ k, k < c ∧ gen k = x

/-- Id-uniqueness invariant over the whole process state: every container
(durable, fallback, remote) holds pairwise distinct supply-drawn ids. -/
def Inv (gen : Nat → String) (s : ProcState) : Prop :=
  ContOk gen s.ctr (s.blobData.getD []) ∧
  ContOk gen s.ctr (s.fallback.getD []) ∧
  ContOk gen s.ctr s.remote

/-- A concrete injective id supply used in witnesses. -/
def sampleGen : Nat → String := fun n => String.mk (List.replicate (n + 1) 'a')

/-- A concrete well-formed blob-mode state used in witnesses. -/
def sampleState : ProcState :=
  ⟨true, true, StorageMode.blob, some [⟨"abc", "t", false⟩], none, [], 5⟩

/-- A concrete well-formed memory-mode state used in witnesses. -/
def sampleMemState : ProcState :=
  ⟨false, true, StorageMode.memory, none, some [⟨"abc", "t", false⟩], [], 5⟩

/-- A concrete demoted remote-mode state (as left by a failed on-platform
initialization) used in witnesses and counterexamples. -/
def sampleRemoteState : ProcState :=
  ⟨false, true, StorageMode.remote, none, none, [⟨"abc", "t", false⟩], 5⟩

/-! ### Basic lemmas about well-formed states -/

theorem setActive_storageMode (s : ProcState) (ts : List Task) :
    (setActive s ts).storageMode = s.storageMode := by
  unfold setActive
  split
  · rfl
  · split
    · rfl
    · rfl

theorem setActive_store (s : ProcState) (ts : List Task) :
    (setActive s ts).store = s.store := by
  unfold setActive
  split
  · rfl
  · split
    · rfl
    · rfl

theorem setActive_ctr (s : ProcState) (ts : List Task) :
    (setActive s ts).ctr = s.ctr := by
  unfold setActive
  split
  · rfl
  · split
    · rfl
    · rfl

theorem activeTasks_setActive (s : ProcState) (ts : List Task) :
    activeTasks (setActive s ts) = ts := by
  unfold activeTasks setActive
  split
  · simp_all
  · split
    · simp_all
    · simp_all

theorem WF_setActive {s : ProcState} (h : WF s) (ts : List Task) :
    WF (setActive s ts) := by
  obtain ⟨h1, h2, h3⟩ := h
  unfold setActive WF
  split
  · simp_all
  · split
    · simp_all
    · simp_all

theorem WF_fallback_isSome {s : ProcState} (h : WF s)
    (hr : s.storageMode ≠ StorageMode.remote)
    (hm : s.storageMode = StorageMode.memory ∨ s.store = false) :
    s.fallback.isSome = true := by
  obtain ⟨h1, h2, h3⟩ := h
  rcases hm with hm | hm
  · exact h3 (Or.inl hm)
  · cases hmode : s.storageMode with
    | uninitialized => exact h3 (Or.inr hmode)
    | blob =>
      have hst := h1.mpr hmode
      rw [hst] at hm
      cases hm
    | remote => exact absurd hmode hr
    | memory => exact h3 (Or.inl hmode)

theorem WF_blob_mode {s : ProcState} (h : WF s)
    (_hr : s.storageMode ≠ StorageMode.remote)
    (hm : ¬(s.storageMode = StorageMode.memory ∨ s.store = false)) :
    s.storageMode = StorageMode.blob := by
  obtain ⟨h1, h2, h3⟩ := h
  push_neg at hm
  exact h1.mp (by simpa using hm.2)

theorem setActive_self {s : ProcState} (h : WF s) :
    setActive s (activeTasks s) = s := by
  unfold setActive activeTasks
  by_cases hr : s.storageMode = StorageMode.remote
  · simp only [hr, if_true, if_pos]
    rw [← hr]
  · by_cases hm : s.storageMode = StorageMode.memory ∨ s.store = false
    · obtain ⟨l, hl⟩ := Option.isSome_iff_exists.mp (WF_fallback_isSome h hr hm)
      simp only [hr, hm, if_false, if_true, if_pos, if_neg, hl, Option.getD_some]
      rw [← hl]
    · obtain ⟨l, hl⟩ :=
        Option.isSome_iff_exists.mp (h.2.1 (WF_blob_mode h hr hm))
      simp only [hr, hm, if_false, if_neg, hl, Option.getD_some]
      rw [← hl]

theorem ensureFallbackContainer_of_isSome {gen : Nat → String} {s : ProcState}
    (h : s.fallback.isSome = true) : ensureFallbackContainer gen s = s := by
  unfold ensureFallbackContainer
  cases hf : s.fallback
  · rw [hf] at h
    simp at h
  · rfl

/-- Under a well-formed state and no faults, `readTasks` returns the
active backend's content and leaves the state unchanged. -/
theorem readTasks_wf {gen : Nat → String} {s : ProcState} (h : WF s) (sOk : Bool) :
    readTasks gen true true sOk s = (Except.ok (activeTasks s), s) := by
  unfold readTasks activeTasks
  by_cases hr : s.storageMode = StorageMode.remote
  · simp [hr]
  · by_cases hm : s.storageMode = StorageMode.memory ∨ s.store = false
    · rw [ensureFallbackContainer_of_isSome (WF_fallback_isSome h hr hm)]
      simp [hr, hm]
    · obtain ⟨l, hl⟩ :=
        Option.isSome_iff_exists.mp (h.2.1 (WF_blob_mode h hr hm))
      simp [hr, hm, hl]

/-- Under a well-formed state and no faults, `writeTasks` replaces the
active backend's content. -/
theorem writeTasks_wf {gen : Nat → String} {s : ProcState} (h : WF s)
    (ts : List Task) :
    writeTasks gen true true ts s = (Except.ok (), setActive s ts) := by
  unfold writeTasks setActive
  by_cases hr : s.storageMode = StorageMode.remote
  · simp [hr]
  · by_cases hm : s.storageMode = StorageMode.memory ∨ s.store = false
    · rw [ensureFallbackContainer_of_isSome (WF_fallback_isSome h hr hm)]
      simp [hr, hm]
    · simp [hr, hm]

/-! ### The CRUD operations on well-formed states, no faults -/

theorem getTasks_wf {gen : Nat → String} {s : ProcState} (h : WF s) (sOk : Bool) :
    getTasks gen true true sOk s = (Except.ok (activeTasks s), s) := by
  unfold getTasks
  exact readTasks_wf h sOk

/-- `createTask` on a well-formed state without faults: it returns a new
task with the requested title and `isDone := false`, appends it to the
active backend's content, and moves only the id counter otherwise. -/
theorem createTask_wf {gen : Nat → String} {s : ProcState} (h : WF s)
    (title : String) :
    ∃ t : Task, ∃ s2 : ProcState,
      createTask gen true true true title s = (Except.ok t, s2) ∧
      t.title = title ∧ t.isDone = false ∧
      activeTasks s2 = activeTasks s ++ [t] ∧
      s2.storageMode = s.storageMode ∧ s2.store = s.store ∧ WF s2 := by
  unfold createTask
  rw [readTasks_wf h true]
  by_cases hr : s.storageMode = StorageMode.remote
  · refine ⟨⟨gen (s.ctr + 1), title, false⟩,
      { s with remote := s.remote ++ [⟨gen (s.ctr + 1), title, false⟩],
               ctr := s.ctr + 1 + 1 }, ?_, rfl, rfl, ?_, rfl, rfl, ?_⟩
    · simp [hr]
    · unfold activeTasks
      simp [hr]
    · exact h
  · have hWFc : WF { s with ctr := s.ctr + 1 } := h
    have hw := @writeTasks_wf gen { s with ctr := s.ctr + 1 } hWFc
      (activeTasks s ++ [⟨gen s.ctr, title, false⟩])
    refine ⟨⟨gen s.ctr, title, false⟩,
      setActive { s with ctr := s.ctr + 1 }
        (activeTasks s ++ [⟨gen s.ctr, title, false⟩]), ?_, rfl, rfl, ?_, ?_, ?_, ?_⟩
    · simp only [hr, if_neg, ite_false]
      rw [hw]
    · rw [activeTasks_setActive]
    · rw [setActive_storageMode]
    · rw [setActive_store]
    · exact WF_setActive hWFc _

/-- `updateTask` on a well-formed state without faults: it reports success
and replaces the active content by its image under the per-record
update. -/
theorem updateTask_wf {gen : Nat → String} {s : ProcState} (h : WF s)
    (taskId : String) (d : Bool) :
    updateTask gen true true true taskId d s =
      (Except.ok true, setActive s ((activeTasks s).map (setDoneFn taskId d))) := by
  unfold updateTask
  rw [readTasks_wf h true]
  by_cases hr : s.storageMode = StorageMode.remote
  · have : activeTasks s = s.remote := by
      unfold activeTasks
      simp [hr]
    simp only [hr, if_true, ite_true, this]
    unfold setActive
    simp [hr]
  · simp only [hr, if_neg, ite_false]
    rw [writeTasks_wf h]

/-- `removeTask` on a well-formed state without faults: it reports success
and replaces the active content by the records whose id differs. -/
theorem removeTask_wf {gen : Nat → String} {s : ProcState} (h : WF s)
    (taskId : String) :
    removeTask gen true true true taskId s =
      (Except.ok true, setActive s ((activeTasks s).filter (fun t => t.id ≠ taskId))) := by
  unfold removeTask
  by_cases hr : s.storageMode = StorageMode.remote
  · have : activeTasks s = s.remote := by
      unfold activeTasks
      simp [hr]
    simp only [hr, if_true, ite_true, this]
    unfold setActive
    simp [hr]
  · simp only [hr, if_neg, ite_false]
    rw [readTasks_wf h true]
    dsimp only
    rw [writeTasks_wf h]

/-! ### List helpers for the update and delete operations -/

theorem setDoneFn_id_eq (taskId : String) (d : Bool) (t : Task) :
    (setDoneFn taskId d t).id = t.id := by
  unfold setDoneFn
  split
  · rfl
  · rfl

theorem setDoneFn_title_eq (taskId : String) (d : Bool) (t : Task) :
    (setDoneFn taskId d t).title = t.title := by
  unfold setDoneFn
  split
  · rfl
  · rfl

theorem setDoneFn_idem (taskId : String) (d : Bool) (t : Task) :
    setDoneFn taskId d (setDoneFn taskId d t) = setDoneFn taskId d t := by
  unfold setDoneFn
  by_cases h : t.id = taskId
  · simp [h]
  · simp [h]

theorem map_setDoneFn_eq_self {l : List Task} {taskId : String} (d : Bool)
    (h : ∀ t ∈ l, t.id ≠ taskId) : l.map (setDoneFn taskId d) = l := by
  induction l with
  | nil => rfl
  | cons a tl ih =>
    simp only [List.map_cons]
    rw [show setDoneFn taskId d a = a by
          unfold setDoneFn
          exact if_neg (h a (List.mem_cons_self a tl)),
        ih (fun t ht => h t (List.mem_cons_of_mem a ht))]

theorem filter_ne_eq_self {l : List Task} {taskId : String}
    (h : ∀ t ∈ l, t.id ≠ taskId) :
    l.filter (fun t => t.id ≠ taskId) = l := by
  rw [List.filter_eq_self]
  intro a ha
  simpa using h a ha

/-! ### The storage mode is only ever written by `initializeStore` -/

theorem ensureFallbackContainer_storageMode (gen : Nat → String) (s : ProcState) :
    (ensureFallbackContainer gen s).storageMode = s.storageMode := by
  unfold ensureFallbackContainer
  split
  · rfl
  · rfl

theorem readTasks_storageMode (gen : Nat → String) (netOk gOk sOk : Bool)
    (s : ProcState) :
    ((readTasks gen netOk gOk sOk s).2).storageMode = s.storageMode := by
  unfold readTasks
  split
  · split
    · rfl
    · rfl
  · split
    · exact ensureFallbackContainer_storageMode gen s
    · split
      · rfl
      · split
        · rfl
        · split
          · rfl
          · rfl

theorem writeTasks_storageMode (gen : Nat → String) (netOk sOk : Bool)
    (tasks : List Task) (s : ProcState) :
    ((writeTasks gen netOk sOk tasks s).2).storageMode = s.storageMode := by
  unfold writeTasks
  split
  · split
    · rfl
    · rfl
  · split
    · exact ensureFallbackContainer_storageMode gen s
    · split
      · rfl
      · rfl

theorem getTasks_storageMode (gen : Nat → String) (netOk gOk sOk : Bool)
    (s : ProcState) :
    ((getTasks gen netOk gOk sOk s).2).storageMode = s.storageMode := by
  unfold getTasks
  exact readTasks_storageMode gen netOk gOk sOk s

theorem createTask_storageMode (gen : Nat → String) (netOk gOk sOk : Bool)
    (title : String) (s : ProcState) :
    ((createTask gen netOk gOk sOk title s).2).storageMode = s.storageMode := by
  unfold createTask
  cases hread : readTasks gen netOk gOk sOk s with
  | mk r s1 =>
    have h1 : s1.storageMode = s.storageMode := by
      have := readTasks_storageMode gen netOk gOk sOk s
      rw [hread] at this
      exact this
    cases r with
    | error e => exact h1
    | ok tasks =>
      dsimp only
      split
      · split
        · exact h1
        · exact h1
      · cases hw : writeTasks gen netOk sOk
          (tasks ++ [⟨gen s1.ctr, title, false⟩]) { s1 with ctr := s1.ctr + 1 } with
        | mk rw sw =>
          have h2 : sw.storageMode = s1.storageMode := by
            have := writeTasks_storageMode gen netOk sOk
              (tasks ++ [⟨gen s1.ctr, title, false⟩]) { s1 with ctr := s1.ctr + 1 }
            rw [hw] at this
            exact this
          cases rw with
          | error e => exact h2.trans h1
          | ok u => exact h2.trans h1

theorem updateTask_storageMode (gen : Nat → String) (netOk gOk sOk : Bool)
    (taskId : String) (d : Bool) (s : ProcState) :
    ((updateTask gen netOk gOk sOk taskId d s).2).storageMode = s.storageMode := by
  unfold updateTask
  cases hread : readTasks gen netOk gOk sOk s with
  | mk r s1 =>
    have h1 : s1.storageMode = s.storageMode := by
      have := readTasks_storageMode gen netOk gOk sOk s
      rw [hread] at this
      exact this
    cases r with
    | error e => exact h1
    | ok tasks =>
      dsimp only
      split
      · split
        · exact h1
        · exact h1
      · cases hw : writeTasks gen netOk sOk (tasks.map (setDoneFn taskId d)) s1 with
        | mk rw sw =>
          have h2 : sw.storageMode = s1.storageMode := by
            have := writeTasks_storageMode gen netOk sOk
              (tasks.map (setDoneFn taskId d)) s1
            rw [hw] at this
            exact this
          cases rw with
          | error e => exact h2.trans h1
          | ok u => exact h2.trans h1

theorem removeTask_storageMode (gen : Nat → String) (netOk gOk sOk : Bool)
    (taskId : String) (s : ProcState) :
    ((removeTask gen netOk gOk sOk taskId s).2).storageMode = s.storageMode := by
  unfold removeTask
  split
  · split
    · rfl
    · rfl
  · cases hread : readTasks gen netOk gOk sOk s with
    | mk r s1 =>
      have h1 : s1.storageMode = s.storageMode := by
        have := readTasks_storageMode gen netOk gOk sOk s
        rw [hread] at this
        exact this
      cases r with
      | error e => exact h1
      | ok tasks =>
        dsimp only
        cases hw : writeTasks gen netOk sOk
            (tasks.filter (fun t => t.id ≠ taskId)) s1 with
        | mk rw sw =>
          have h2 : sw.storageMode = s1.storageMode := by
            have := writeTasks_storageMode gen netOk sOk
              (tasks.filter (fun t => t.id ≠ taskId)) s1
            rw [hw] at this
            exact this
          cases rw with
          | error e => exact h2.trans h1
          | ok u => exact h2.trans h1

theorem initializeStore_of_store {gen : Nat → String}
    {netlify remoteCfg gOk sOk : Bool} {s : ProcState} (h : s.store = true) :
    initializeStore gen netlify remoteCfg gOk sOk s = s := by
  unfold initializeStore
  rw [h]
  rfl

theorem setActive_setActive (s : ProcState) (ts us : List Task) :
    setActive (setActive s ts) us = setActive s us := by
  unfold setActive
  by_cases hr : s.storageMode = StorageMode.remote
  · simp [hr]
  · by_cases hm : s.storageMode = StorageMode.memory ∨ s.store = false
    · simp [hr, hm]
    · simp [hr, hm]

/-! ### The id-uniqueness invariant -/

theorem ContOk_nil (gen : Nat → String) (c : Nat) : ContOk gen c [] := by
  refine ⟨List.nodup_nil, ?_⟩
  intro x hx
  cases hx

theorem ContOk_mono {gen : Nat → String} {c c' : Nat} {l : List Task}
    (hc : c ≤ c') (h : ContOk gen c l) : ContOk gen c' l := by
  refine ⟨h.1, ?_⟩
  intro x hx
  obtain ⟨k, hk, hgk⟩ := h.2 x hx
  exact ⟨k, lt_of_lt_of_le hk hc, hgk⟩

theorem ContOk_append_fresh {gen : Nat → String} (hg : Function.Injective gen)
    {c : Nat} {l : List Task} (h : ContOk gen c l) (title : String) (d : Bool) :
    ContOk gen (c + 1) (l ++ [⟨gen c, title, d⟩]) := by
  have hids : idsOf (l ++ [⟨gen c, title, d⟩]) = idsOf l ++ [gen c] := by
    unfold idsOf
    rw [List.map_append]
    rfl
  constructor
  · rw [hids]
    refine List.nodup_append.2 ⟨h.1, List.nodup_singleton _, ?_⟩
    intro x hx hx'
    rw [List.mem_singleton] at hx'
    obtain ⟨k, hk, hgk⟩ := h.2 x hx
    rw [hx'] at hgk
    have := hg hgk
    omega
  · rw [hids]
    intro x hx
    rcases List.mem_append.1 hx with hx | hx
    · obtain ⟨k, hk, hgk⟩ := h.2 x hx
      exact ⟨k, by omega, hgk⟩
    · rw [List.mem_singleton] at hx
      exact ⟨c, by omega, hx.symm⟩

theorem ContOk_seed {gen : Nat → String} (hg : Function.Injective gen) (c : Nat) :
    ContOk gen (c + 3) (buildDefaultTasks gen c).1 := by
  have h01 : gen c ≠ gen (c + 1) := fun hh => by
    have := hg hh
    omega
  have h02 : gen c ≠ gen (c + 2) := fun hh => by
    have := hg hh
    omega
  have h12 : gen (c + 1) ≠ gen (c + 2) := fun hh => by
    have := hg hh
    omega
  constructor
  · simp only [idsOf, buildDefaultTasks, List.map_cons, List.map_nil,
      List.nodup_cons, List.mem_cons, List.mem_singleton, List.not_mem_nil,
      List.nodup_nil]
    refine ⟨?_, ?_, ?_⟩
    · intro hc
      rcases hc with hc | hc
      · exact h01 hc
      · rcases hc with hc | hc
        · exact h02 hc
        · cases hc
    · intro hc
      rcases hc with hc | hc
      · exact h12 hc
      · cases hc
    · trivial
  · intro x hx
    simp only [idsOf, buildDefaultTasks, List.map_cons, List.map_nil,
      List.mem_cons, List.not_mem_nil, or_false] at hx
    rcases hx with hx | hx | hx
    · exact ⟨c, by omega, hx.symm⟩
    · exact ⟨c + 1, by omega, hx.symm⟩
    · exact ⟨c + 2, by omega, hx.symm⟩

theorem ContOk_map {gen : Nat → String} {c : Nat} {l : List Task}
    (h : ContOk gen c l) (taskId : String) (d : Bool) :
    ContOk gen c (l.map (setDoneFn taskId d)) := by
  have hids : idsOf (l.map (setDoneFn taskId d)) = idsOf l := by
    unfold idsOf
    rw [List.map_map]
    exact List.map_congr_left (fun a _ => setDoneFn_id_eq taskId d a)
  exact ⟨by rw [hids]; exact h.1, by rw [hids]; exact h.2⟩

theorem ContOk_filter {gen : Nat → String} {c : Nat} {l : List Task}
    (h : ContOk gen c l) (p : Task → Bool) :
    ContOk gen c (l.filter p) := by
  have hsub : List.Sublist (idsOf (l.filter p)) (idsOf l) :=
    List.Sublist.map Task.id (List.filter_sublist l)
  exact ⟨List.Nodup.sublist hsub h.1, fun x hx => h.2 x (hsub.mem hx)⟩

/-! ### Demotion lemmas -/

theorem ensureFallbackContainer_isSome (gen : Nat → String) (s : ProcState) :
    ((ensureFallbackContainer gen s).fallback).isSome = true := by
  unfold ensureFallbackContainer
  cases hf : s.fallback
  · rfl
  · rw [hf]
    rfl

theorem ensureFallbackContainer_store (gen : Nat → String) (s : ProcState) :
    (ensureFallbackContainer gen s).store = s.store := by
  unfold ensureFallbackContainer
  split
  · rfl
  · rfl

theorem ensureFallbackContainer_idem (gen : Nat → String) (s : ProcState) :
    ensureFallbackContainer gen (ensureFallbackContainer gen s) =
      ensureFallbackContainer gen s :=
  ensureFallbackContainer_of_isSome (ensureFallbackContainer_isSome gen s)

theorem demoteFromBlob_store (gen : Nat → String) (remoteCfg : Bool)
    (s : ProcState) : (demoteFromBlob gen remoteCfg s).store = s.store := by
  unfold demoteFromBlob useRemoteStorage
  cases remoteCfg
  · simp only [Bool.false_eq_true, if_false, ite_false]
    exact ensureFallbackContainer_store gen _
  · rfl

theorem demoteFromBlob_storageMode (gen : Nat → String) (remoteCfg : Bool)
    (s : ProcState) :
    (demoteFromBlob gen remoteCfg s).storageMode =
      (if remoteCfg = true then StorageMode.remote else StorageMode.memory) := by
  unfold demoteFromBlob useRemoteStorage
  cases remoteCfg
  · simp only [Bool.false_eq_true, if_false, ite_false]
    exact ensureFallbackContainer_storageMode gen _
  · rfl

theorem setMode_self {s : ProcState} {m : StorageMode} (h : s.storageMode = m) :
    ({ s with storageMode := m } : ProcState) = s := by
  rw [← h]

theorem demoteFromBlob_idem (gen : Nat → String) (remoteCfg : Bool)
    (s : ProcState) :
    demoteFromBlob gen remoteCfg (demoteFromBlob gen remoteCfg s) =
      demoteFromBlob gen remoteCfg s := by
  unfold demoteFromBlob useRemoteStorage
  cases remoteCfg
  · simp only [Bool.false_eq_true, if_false, ite_false]
    rw [setMode_self (ensureFallbackContainer_storageMode gen
      { s with storageMode := StorageMode.memory })]
    exact ensureFallbackContainer_idem gen _
  · rfl

theorem WF_demoteFromBlob (gen : Nat → String) (remoteCfg : Bool)
    {s : ProcState} (h : s.store = false) :
    WF (demoteFromBlob gen remoteCfg s) := by
  unfold demoteFromBlob useRemoteStorage
  cases remoteCfg
  · simp only [Bool.false_eq_true, if_false, ite_false]
    refine ⟨?_, ?_, ?_⟩
    · rw [ensureFallbackContainer_store gen _, ensureFallbackContainer_storageMode gen _]
      constructor
      · intro hc
        rw [h] at hc
        cases hc
      · intro hc
        cases hc
    · rw [ensureFallbackContainer_storageMode gen _]
      intro hc
      cases hc
    · intro _
      exact ensureFallbackContainer_isSome gen _
  · refine ⟨?_, ?_, ?_⟩
    · simp only
      constructor
      · intro hc
        rw [h] at hc
        cases hc
      · intro hc
        cases hc
    · intro hc
      cases hc
    · intro hc
      rcases hc with hc | hc
      · cases hc
      · cases hc

/-- A failed on-platform initialization (blob `getStore`/`get` raising)
lands in the demotion step with the handle unset. -/
theorem initializeStore_gFail {gen : Nat → String} {remoteCfg sOk : Bool}
    {s : ProcState} (h : s.store = false) :
    initializeStore gen true remoteCfg false sOk s =
      demoteFromBlob gen remoteCfg
        { s with connectAttempted := true, store := false } := by
  unfold initializeStore
  rw [h]
  rfl

/-! ### Invariant preservation -/

theorem ensureFallbackContainer_ctr_le (gen : Nat → String) (s : ProcState) :
    s.ctr ≤ (ensureFallbackContainer gen s).ctr := by
  unfold ensureFallbackContainer
  split
  · exact le_refl _
  · exact Nat.le_add_right _ _

theorem Inv_ensure {gen : Nat → String} (hg : Function.Injective gen)
    {s : ProcState} (h : Inv gen s) : Inv gen (ensureFallbackContainer gen s) := by
  unfold ensureFallbackContainer
  split
  · exact h
  · obtain ⟨hb, _, hr⟩ := h
    refine ⟨ContOk_mono (Nat.le_add_right _ _) hb, ?_,
      ContOk_mono (Nat.le_add_right _ _) hr⟩
    simp only [Option.getD_some]
    exact ContOk_seed hg s.ctr

theorem Inv_demote {gen : Nat → String} (hg : Function.Injective gen)
    (remoteCfg : Bool) {s : ProcState} (h : Inv gen s) :
    Inv gen (demoteFromBlob gen remoteCfg s) := by
  unfold demoteFromBlob useRemoteStorage
  cases remoteCfg
  · simp only [Bool.false_eq_true, if_false, ite_false]
    exact Inv_ensure hg h
  · exact h

theorem Inv_init {gen : Nat → String} (hg : Function.Injective gen)
    (netlify remoteCfg gOk sOk : Bool) {s : ProcState} (h : Inv gen s) :
    Inv gen (initializeStore gen netlify remoteCfg gOk sOk s) := by
  unfold initializeStore
  cases hstore : s.store
  · simp only [Bool.false_eq_true, if_false, ite_false]
    cases netlify
    · simp only [Bool.not_false, if_true, ite_true]
      exact Inv_demote hg remoteCfg h
    · simp only [Bool.not_true, Bool.false_eq_true, if_false, ite_false]
      cases gOk
      · simp only [Bool.not_false, if_true, ite_true]
        exact Inv_demote hg remoteCfg h
      · simp only [Bool.not_true, Bool.false_eq_true, if_false, ite_false]
        cases hbd : s.blobData
        · simp only
          cases sOk
          · simp only [Bool.not_false, if_true, ite_true]
            apply Inv_demote hg remoteCfg
            obtain ⟨_, hf, hr⟩ := h
            exact ⟨ContOk_nil gen _, ContOk_mono (Nat.le_add_right _ _) hf,
              ContOk_mono (Nat.le_add_right _ _) hr⟩
          · simp only [Bool.not_true, Bool.false_eq_true, if_false, ite_false]
            obtain ⟨_, hf, hr⟩ := h
            refine ⟨?_, ContOk_mono (Nat.le_add_right _ _) hf,
              ContOk_mono (Nat.le_add_right _ _) hr⟩
            simp only [Option.getD_some]
            exact ContOk_seed hg s.ctr
        · obtain ⟨hb, hf, hr⟩ := h
          rw [hbd] at hb
          exact ⟨hb, hf, hr⟩
  · simp only [eq_self_iff_true, if_true, ite_true]
    exact h

theorem readTasks_inv {gen : Nat → String} (hg : Function.Injective gen)
    (netOk gOk sOk : Bool) {s : ProcState} (h : Inv gen s) :
    Inv gen (readTasks gen netOk gOk sOk s).2 ∧
    ∀ l : List Task, (readTasks gen netOk gOk sOk s).1 = Except.ok l →
      ContOk gen ((readTasks gen netOk gOk sOk s).2).ctr l := by
  unfold readTasks
  split
  · cases netOk
    · simp only [Bool.false_eq_true, if_false, ite_false]
      exact ⟨h, fun l hl => by cases hl⟩
    · simp only [if_true, ite_true]
      refine ⟨h, fun l hl => ?_⟩
      have : s.remote = l := by
        injection hl
      rw [← this]
      exact h.2.2
  · split
    · refine ⟨Inv_ensure hg h, fun l hl => ?_⟩
      have : (ensureFallbackContainer gen s).fallback.getD [] = l := by
        injection hl
      rw [← this]
      exact (Inv_ensure hg h).2.1
    · cases gOk
      · simp only [Bool.not_false, if_true, ite_true]
        exact ⟨h, fun l hl => by cases hl⟩
      · simp only [Bool.not_true, Bool.false_eq_true, if_false, ite_false]
        cases hbd : s.blobData
        · simp only
          cases sOk
          · simp only [Bool.not_false, if_true, ite_true]
            refine ⟨?_, fun l hl => by cases hl⟩
            obtain ⟨hb, hf, hr⟩ := h
            exact ⟨ContOk_nil gen _, ContOk_mono (Nat.le_add_right _ _) hf,
              ContOk_mono (Nat.le_add_right _ _) hr⟩
          · simp only [Bool.not_true, Bool.false_eq_true, if_false, ite_false]
            obtain ⟨_, hf, hr⟩ := h
            refine ⟨⟨?_, ContOk_mono (Nat.le_add_right _ _) hf,
              ContOk_mono (Nat.le_add_right _ _) hr⟩, fun l hl => ?_⟩
            · simp only [Option.getD_some]
              exact ContOk_seed hg s.ctr
            · have : (buildDefaultTasks gen s.ctr).1 = l := by
                injection hl
              rw [← this]
              exact ContOk_seed hg s.ctr
        · rename_i v
          refine ⟨h, fun l hl => ?_⟩
          have hl2 : (Except.ok v : Except Unit (List Task)) = Except.ok l := hl
          have hvl : v = l := by injection hl2
          rw [← hvl]
          have hb := h.1
          rw [hbd] at hb
          exact hb

theorem writeTasks_inv {gen : Nat → String} (hg : Function.Injective gen)
    (netOk sOk : Bool) {ts : List Task} {s : ProcState} (h : Inv gen s)
    (hts : ContOk gen s.ctr ts) :
    Inv gen (writeTasks gen netOk sOk ts s).2 := by
  unfold writeTasks
  split
  · cases netOk
    · exact h
    · exact ⟨h.1, h.2.1, hts⟩
  · split
    · have he := Inv_ensure hg h
      refine ⟨he.1, ?_, he.2.2⟩
      simp only [Option.getD_some]
      exact ContOk_mono (ensureFallbackContainer_ctr_le gen s) hts
    · cases sOk
      · exact h
      · exact ⟨by simpa using hts, h.2.1, h.2.2⟩

theorem getTasks_inv {gen : Nat → String} (hg : Function.Injective gen)
    (netOk gOk sOk : Bool) {s : ProcState} (h : Inv gen s) :
    Inv gen (getTasks gen netOk gOk sOk s).2 := by
  unfold getTasks
  exact (readTasks_inv hg netOk gOk sOk h).1

theorem createTask_inv {gen : Nat → String} (hg : Function.Injective gen)
    (netOk gOk sOk : Bool) (title : String) {s : ProcState} (h : Inv gen s) :
    Inv gen (createTask gen netOk gOk sOk title s).2 := by
  unfold createTask
  cases hread : readTasks gen netOk gOk sOk s with
  | mk r s1 =>
    have hri := readTasks_inv hg netOk gOk sOk h
    rw [hread] at hri
    cases r with
    | error e => exact hri.1
    | ok tasks =>
      have h1 : Inv gen s1 := hri.1
      have hts : ContOk gen s1.ctr tasks := hri.2 tasks rfl
      dsimp only
      split
      · cases netOk
        · simp only [Bool.false_eq_true, if_false, ite_false]
          exact ⟨ContOk_mono (Nat.le_add_right _ 1) h1.1,
            ContOk_mono (Nat.le_add_right _ 1) h1.2.1,
            ContOk_mono (Nat.le_add_right _ 1) h1.2.2⟩
        · simp only [if_true, ite_true]
          refine ⟨ContOk_mono (le_trans (Nat.le_add_right _ 1) (Nat.le_add_right _ 1)) h1.1,
            ContOk_mono (le_trans (Nat.le_add_right _ 1) (Nat.le_add_right _ 1)) h1.2.1, ?_⟩
          exact ContOk_append_fresh hg
            (ContOk_mono (Nat.le_add_right _ 1) h1.2.2) title false
      · have h2 : Inv gen ({ s1 with ctr := s1.ctr + 1 } : ProcState) :=
          ⟨ContOk_mono (Nat.le_add_right _ 1) h1.1,
            ContOk_mono (Nat.le_add_right _ 1) h1.2.1,
            ContOk_mono (Nat.le_add_right _ 1) h1.2.2⟩
        have hts2 : ContOk gen ({ s1 with ctr := s1.ctr + 1 } : ProcState).ctr
            (tasks ++ [⟨gen s1.ctr, title, false⟩]) :=
          ContOk_append_fresh hg hts title false
        have hw := writeTasks_inv hg netOk sOk h2 hts2
        cases hwrite : writeTasks gen netOk sOk (tasks ++ [⟨gen s1.ctr, title, false⟩])
            { s1 with ctr := s1.ctr + 1 } with
        | mk rw sw =>
          rw [hwrite] at hw
          cases rw with
          | error e => exact hw
          | ok u => exact hw

theorem updateTask_inv {gen : Nat → String} (hg : Function.Injective gen)
    (netOk gOk sOk : Bool) (taskId : String) (d : Bool) {s : ProcState}
    (h : Inv gen s) :
    Inv gen (updateTask gen netOk gOk sOk taskId d s).2 := by
  unfold updateTask
  cases hread : readTasks gen netOk gOk sOk s with
  | mk r s1 =>
    have hri := readTasks_inv hg netOk gOk sOk h
    rw [hread] at hri
    cases r with
    | error e => exact hri.1
    | ok tasks =>
      have h1 : Inv gen s1 := hri.1
      have hts : ContOk gen s1.ctr tasks := hri.2 tasks rfl
      dsimp only
      split
      · cases netOk
        · exact h1
        · exact ⟨h1.1, h1.2.1, ContOk_map h1.2.2 taskId d⟩
      · have hw := writeTasks_inv hg netOk sOk h1 (ContOk_map hts taskId d)
        cases hwrite : writeTasks gen netOk sOk (tasks.map (setDoneFn taskId d)) s1 with
        | mk rw sw =>
          rw [hwrite] at hw
          cases rw with
          | error e => exact hw
          | ok u => exact hw

theorem removeTask_inv {gen : Nat → String} (hg : Function.Injective gen)
    (netOk gOk sOk : Bool) (taskId : String) {s : ProcState} (h : Inv gen s) :
    Inv gen (removeTask gen netOk gOk sOk taskId s).2 := by
  unfold removeTask
  split
  · cases netOk
    · exact h
    · exact ⟨h.1, h.2.1, ContOk_filter h.2.2 _⟩
  · cases hread : readTasks gen netOk gOk sOk s with
    | mk r s1 =>
      have hri := readTasks_inv hg netOk gOk sOk h
      rw [hread] at hri
      cases r with
      | error e => exact hri.1
      | ok tasks =>
        have h1 : Inv gen s1 := hri.1
        have hts : ContOk gen s1.ctr tasks := hri.2 tasks rfl
        dsimp only
        have hw := writeTasks_inv hg netOk sOk h1
          (ContOk_filter hts (fun t => t.id ≠ taskId))
        cases hwrite : writeTasks gen netOk sOk
            (tasks.filter (fun t => t.id ≠ taskId)) s1 with
        | mk rw sw =>
          rw [hwrite] at hw
          cases rw with
          | error e => exact hw
          | ok u => exact hw

theorem step_inv {gen : Nat → String} (hg : Function.Injective gen)
    (op : Op) {s : ProcState} (h : Inv gen s) : Inv gen (step gen op s) := by
  cases op with
  | opInit n r g so => exact Inv_init hg n r g so h
  | opList nk g so => exact getTasks_inv hg nk g so h
  | opCreate t nk g so => exact createTask_inv hg nk g so t h
  | opSetDone i d nk g so => exact updateTask_inv hg nk g so i d h
  | opRemove i nk g so => exact removeTask_inv hg nk g so i h

theorem run_inv {gen : Nat → String} (hg : Function.Injective gen)
    (ops : List Op) {s : ProcState} (h : Inv gen s) : Inv gen (run gen ops s) := by
  induction ops generalizing s with
  | nil => exact h
  | cons op rest ih =>
    unfold run
    rw [List.foldl_cons]
    exact ih (step_inv hg op h)


/-! ### Durable-store faults after initialization -/

theorem not_remote_of_blob {s : ProcState}
    (hb : s.storageMode = StorageMode.blob) :
    ¬(s.storageMode = StorageMode.remote) := by
  intro hc
  rw [hb] at hc
  cases hc

theorem not_memory_or_unset_of_blob {s : ProcState} (h : WF s)
    (hb : s.storageMode = StorageMode.blob) :
    ¬(s.storageMode = StorageMode.memory ∨ s.store = false) := by
  intro hc
  rcases hc with hc | hc
  · rw [hb] at hc
    cases hc
  · rw [h.1.mpr hb] at hc
    cases hc

/-- In blob mode, a failing blob `get` makes `readTasks` propagate the
exception with the state untouched, whatever the other flags. -/
theorem readTasks_blob_gFail {gen : Nat → String} {s : ProcState} (h : WF s)
    (hb : s.storageMode = StorageMode.blob) (netOk sOk : Bool) :
    readTasks gen netOk false sOk s = (Except.error (), s) := by
  unfold readTasks
  rw [if_neg (not_remote_of_blob hb), if_neg (not_memory_or_unset_of_blob h hb)]
  rfl

/-- In blob mode with a succeeding blob `get`, `readTasks` returns the
stored array and leaves the state untouched, whatever the other flags. -/
theorem readTasks_blob_ok {gen : Nat → String} {s : ProcState} (h : WF s)
    (hb : s.storageMode = StorageMode.blob) (netOk sOk : Bool) :
    readTasks gen netOk true sOk s = (Except.ok (s.blobData.getD []), s) := by
  obtain ⟨l, hl⟩ := Option.isSome_iff_exists.mp (h.2.1 hb)
  unfold readTasks
  rw [if_neg (not_remote_of_blob hb), if_neg (not_memory_or_unset_of_blob h hb), hl]
  rfl

/-- In blob mode, a failing blob `setJSON` makes `writeTasks` propagate
the exception with the state untouched. -/
theorem writeTasks_blob_sFail {gen : Nat → String} {s : ProcState} (h : WF s)
    (hb : s.storageMode = StorageMode.blob) (netOk : Bool) (ts : List Task) :
    writeTasks gen netOk false ts s = (Except.error (), s) := by
  unfold writeTasks
  rw [if_neg (not_remote_of_blob hb), if_neg (not_memory_or_unset_of_blob h hb)]
  rfl

/-! ### Claim theorems -/

/-- C1 counterexample: a durable-store write failure after successful
initialization does not demote and is not retried: on the blob-mode state
`sampleState`, a `create` whose blob `setJSON` raises surfaces the error
to the caller, the mode stays `blob`, the handle stays set, and the
durable content is untouched — contradicting the claim that the operation
is retried once against the next tier and succeeds. -/
theorem no_demotion_on_write_failure_counterexample :
    (createTask sampleGen true true false "hello" sampleState).1 =
      Except.error () ∧
    ((createTask sampleGen true true false "hello" sampleState).2).storageMode =
      StorageMode.blob ∧
    ((createTask sampleGen true true false "hello" sampleState).2).store = true ∧
    ((createTask sampleGen true true false "hello" sampleState).2).blobData =
      sampleState.blobData :=
  ⟨rfl, rfl, rfl, rfl⟩

/-- C1 amended: demotion happens only during initialization.  If the
durable store fails while `initializeStore` probes it, the selector
demotes to the next configured tier (remote if configured, else memory)
and a subsequent `create` succeeds against that tier, which stays active.
But once the durable tier is initialized (blob mode), any exception from
the durable store during a read or write propagates to the caller with no
demotion and no retry, across all CRUD operations: a failing blob `get`
makes `list`, `create`, `setDone` and `remove` return the error with the
state exactly unchanged, and a failing blob `setJSON` makes `create`,
`setDone` and `remove` return the error with the mode still `blob`, the
handle still set and the durable content untouched. -/
theorem demotion_only_at_initialization (gen : Nat → String) :
    (∀ (remoteCfg sOk : Bool) (s : ProcState) (title : String),
      s.store = false →
      ((remoteCfg = true →
        (initializeStore gen true remoteCfg false sOk s).storageMode =
          StorageMode.remote) ∧
       (remoteCfg = false →
        (initializeStore gen true remoteCfg false sOk s).storageMode =
          StorageMode.memory) ∧
       (∃ t : Task, ∃ s2 : ProcState,
        createTask gen true true true title
            (initializeStore gen true remoteCfg false sOk s) =
          (Except.ok t, s2) ∧
        t.title = title ∧ t.isDone = false ∧
        s2.storageMode =
          (initializeStore gen true remoteCfg false sOk s).storageMode))) ∧
    (∀ (netOk sOk : Bool) (s : ProcState) (taskId title : String) (d : Bool),
      WF s → s.storageMode = StorageMode.blob →
      getTasks gen netOk false sOk s = (Except.error (), s) ∧
      createTask gen netOk false sOk title s = (Except.error (), s) ∧
      updateTask gen netOk false sOk taskId d s = (Except.error (), s) ∧
      removeTask gen netOk false sOk taskId s = (Except.error (), s)) ∧
    (∀ (netOk : Bool) (s : ProcState) (taskId title : String) (d : Bool),
      WF s → s.storageMode = StorageMode.blob →
      ((createTask gen netOk true false title s).1 = Except.error () ∧
       ((createTask gen netOk true false title s).2).storageMode =
         StorageMode.blob ∧
       ((createTask gen netOk true false title s).2).store = true ∧
       ((createTask gen netOk true false title s).2).blobData = s.blobData) ∧
      updateTask gen netOk true false taskId d s = (Except.error (), s) ∧
      removeTask gen netOk true false taskId s = (Except.error (), s)) := by
  refine ⟨?_, ?_, ?_⟩
  · intro remoteCfg sOk s title hstore
    rw [initializeStore_gFail hstore]
    have hwf : WF (demoteFromBlob gen remoteCfg
        { s with connectAttempted := true, store := false }) :=
      WF_demoteFromBlob gen remoteCfg rfl
    refine ⟨?_, ?_, ?_⟩
    · intro hc
      rw [demoteFromBlob_storageMode, hc]
      rfl
    · intro hc
      rw [demoteFromBlob_storageMode, hc]
      rfl
    · obtain ⟨t, s2, hc, ht, hd, _, hmode, _, _⟩ := createTask_wf hwf title
      exact ⟨t, s2, hc, ht, hd, hmode⟩
  · intro netOk sOk s taskId title d hwf hblob
    have hrf := @readTasks_blob_gFail gen s hwf hblob netOk sOk
    refine ⟨?_, ?_, ?_, ?_⟩
    · unfold getTasks
      exact hrf
    · unfold createTask
      rw [hrf]
    · unfold updateTask
      rw [hrf]
    · unfold removeTask
      rw [if_neg (not_remote_of_blob hblob), hrf]
  · intro netOk s taskId title d hwf hblob
    have hstore : s.store = true := hwf.1.mpr hblob
    have hro := @readTasks_blob_ok gen s hwf hblob netOk false
    refine ⟨?_, ?_, ?_⟩
    · unfold createTask
      rw [hro]
      dsimp only
      rw [if_neg (@not_remote_of_blob { s with ctr := s.ctr + 1 } hblob),
        @writeTasks_blob_sFail gen { s with ctr := s.ctr + 1 } hwf hblob netOk
          (s.blobData.getD [] ++ [Task.mk (gen s.ctr) title false])]
      exact ⟨rfl, hblob, hstore, rfl⟩
    · unfold updateTask
      rw [hro]
      dsimp only
      rw [if_neg (not_remote_of_blob hblob),
        writeTasks_blob_sFail hwf hblob netOk
          ((s.blobData.getD []).map (setDoneFn taskId d))]
    · unfold removeTask
      rw [if_neg (not_remote_of_blob hblob), hro]
      dsimp only
      rw [writeTasks_blob_sFail hwf hblob netOk
        ((s.blobData.getD []).filter (fun t => t.id ≠ taskId))]

/-- C1 amended witness: demotion-then-success from the fresh state with a
remote tier configured, and read-failure and write-failure propagation
for each operation on the concrete blob-mode state. -/
theorem demotion_only_at_initialization_witness :
    initState.store = false ∧ WF sampleState ∧
    sampleState.storageMode = StorageMode.blob ∧
    ((true = true →
      (initializeStore sampleGen true true false true initState).storageMode =
        StorageMode.remote) ∧
     (true = false →
      (initializeStore sampleGen true true false true initState).storageMode =
        StorageMode.memory) ∧
     (∃ t : Task, ∃ s2 : ProcState,
      createTask sampleGen true true true "hello"
          (initializeStore sampleGen true true false true initState) =
        (Except.ok t, s2) ∧
      t.title = "hello" ∧ t.isDone = false ∧
      s2.storageMode =
        (initializeStore sampleGen true true false true initState).storageMode)) ∧
    (getTasks sampleGen true false true sampleState =
        (Except.error (), sampleState) ∧
      createTask sampleGen true false true "hello" sampleState =
        (Except.error (), sampleState) ∧
      updateTask sampleGen true false true "abc" true sampleState =
        (Except.error (), sampleState) ∧
      removeTask sampleGen true false true "abc" sampleState =
        (Except.error (), sampleState)) ∧
    (((createTask sampleGen true true false "hello" sampleState).1 =
          Except.error () ∧
       ((createTask sampleGen true true false "hello" sampleState).2).storageMode =
         StorageMode.blob ∧
       ((createTask sampleGen true true false "hello" sampleState).2).store =
         true ∧
       ((createTask sampleGen true true false "hello" sampleState).2).blobData =
         sampleState.blobData) ∧
      updateTask sampleGen true true false "abc" true sampleState =
        (Except.error (), sampleState) ∧
      removeTask sampleGen true true false "abc" sampleState =
        (Except.error (), sampleState)) :=
  ⟨by decide, by decide, by decide,
    (demotion_only_at_initialization sampleGen).1 true true initState "hello"
      (by decide),
    (demotion_only_at_initialization sampleGen).2.1 true true sampleState "abc"
      "hello" true (by decide) (by decide),
    (demotion_only_at_initialization sampleGen).2.2 true sampleState "abc"
      "hello" true (by decide) (by decide)⟩

/-- C2 counterexample: a reachable execution in which the mode returns to
a higher tier.  From the fresh state, an `initializeStore` whose blob
probe fails demotes to `remote`; a second `initializeStore` (the handle
being unset) re-attempts the durable store, succeeds, and moves the mode
back up to `blob`. -/
theorem mode_upgrade_counterexample :
    (run sampleGen [Op.opInit true true false true] initState).storageMode =
      StorageMode.remote ∧
    (run sampleGen [Op.opInit true true false true, Op.opInit true true true true]
        initState).storageMode = StorageMode.blob := by
  decide

/-- C2 amended: the mode is written only by `initializeStore`: CRUD calls
never change it; once the durable handle is set, `initializeStore` leaves
the whole state unchanged; and any `initializeStore` run without the
handle lands in one of `blob`, `remote`, `memory`.  However, after a
failed durable initialization (handle unset) a later `initializeStore`
may re-attempt the durable store and move the mode back up to `blob`. -/
theorem mode_changes_only_in_initializeStore (gen : Nat → String) :
    (∀ (netOk gOk sOk : Bool) (s : ProcState),
      ((getTasks gen netOk gOk sOk s).2).storageMode = s.storageMode) ∧
    (∀ (title : String) (netOk gOk sOk : Bool) (s : ProcState),
      ((createTask gen netOk gOk sOk title s).2).storageMode = s.storageMode) ∧
    (∀ (taskId : String) (d : Bool) (netOk gOk sOk : Bool) (s : ProcState),
      ((updateTask gen netOk gOk sOk taskId d s).2).storageMode = s.storageMode) ∧
    (∀ (taskId : String) (netOk gOk sOk : Bool) (s : ProcState),
      ((removeTask gen netOk gOk sOk taskId s).2).storageMode = s.storageMode) ∧
    (∀ (netlify remoteCfg gOk sOk : Bool) (s : ProcState), s.store = true →
      initializeStore gen netlify remoteCfg gOk sOk s = s) ∧
    (∀ (netlify remoteCfg gOk sOk : Bool) (s : ProcState), s.store = false →
      (initializeStore gen netlify remoteCfg gOk sOk s).storageMode =
          StorageMode.blob ∨
      (initializeStore gen netlify remoteCfg gOk sOk s).storageMode =
          StorageMode.remote ∨
      (initializeStore gen netlify remoteCfg gOk sOk s).storageMode =
          StorageMode.memory) := by
  refine ⟨?_, ?_, ?_, ?_, ?_, ?_⟩
  · exact fun netOk gOk sOk s => getTasks_storageMode gen netOk gOk sOk s
  · exact fun title netOk gOk sOk s => createTask_storageMode gen netOk gOk sOk title s
  · exact fun taskId d netOk gOk sOk s =>
      updateTask_storageMode gen netOk gOk sOk taskId d s
  · exact fun taskId netOk gOk sOk s => removeTask_storageMode gen netOk gOk sOk taskId s
  · exact fun _ _ _ _ _ h => initializeStore_of_store h
  · intro netlify remoteCfg gOk sOk s hstore
    have hdem : ∀ s1 : ProcState,
        (demoteFromBlob gen remoteCfg s1).storageMode = StorageMode.blob ∨
        (demoteFromBlob gen remoteCfg s1).storageMode = StorageMode.remote ∨
        (demoteFromBlob gen remoteCfg s1).storageMode = StorageMode.memory := by
      intro s1
      rw [demoteFromBlob_storageMode]
      cases remoteCfg
      · right
        right
        rfl
      · right
        left
        rfl
    unfold initializeStore
    rw [hstore]
    simp only [Bool.false_eq_true, if_false, ite_false]
    cases netlify
    · simp only [Bool.not_false, if_true, ite_true]
      exact hdem s
    · simp only [Bool.not_true, Bool.false_eq_true, if_false, ite_false]
      cases gOk
      · simp only [Bool.not_false, if_true, ite_true]
        exact hdem _
      · simp only [Bool.not_true, Bool.false_eq_true, if_false, ite_false]
        cases hbd : s.blobData
        · simp only
          cases sOk
          · simp only [Bool.not_false, if_true, ite_true]
            exact hdem _
          · simp only [Bool.not_true, Bool.false_eq_true, if_false, ite_false]
            left
            trivial
        · left
          trivial

/-- C2 amended witness: the theorem applied at concrete states — a CRUD
call on the demoted remote state keeps the mode, an initialized blob
state is left untouched, and a fresh-state initialization lands in a
valid mode. -/
theorem mode_changes_only_in_initializeStore_witness :
    sampleState.store = true ∧ initState.store = false ∧
    ((getTasks sampleGen true true true sampleRemoteState).2).storageMode =
      sampleRemoteState.storageMode ∧
    initializeStore sampleGen true true true true sampleState = sampleState ∧
    ((initializeStore sampleGen true true true true initState).storageMode =
        StorageMode.blob ∨
      (initializeStore sampleGen true true true true initState).storageMode =
        StorageMode.remote ∨
      (initializeStore sampleGen true true true true initState).storageMode =
        StorageMode.memory) :=
  ⟨by decide, by decide,
    (mode_changes_only_in_initializeStore sampleGen).1 true true true sampleRemoteState,
    (mode_changes_only_in_initializeStore sampleGen).2.2.2.2.1 true true true true
      sampleState (by decide),
    (mode_changes_only_in_initializeStore sampleGen).2.2.2.2.2 true true true true
      initState (by decide)⟩

/-- C3 counterexample: `initializeStore` is not idempotent after a
demotion.  From the fresh state, a failed durable probe selects `remote`;
the next `initializeStore` call does not return immediately: it
re-attempts the durable store and changes the selected mode to `blob`,
altering the state. -/
theorem initializeStore_not_idempotent_counterexample :
    (initializeStore sampleGen true true false true initState).storageMode =
      StorageMode.remote ∧
    (initializeStore sampleGen true true true true
        (initializeStore sampleGen true true false true initState)).storageMode =
      StorageMode.blob ∧
    initializeStore sampleGen true true true true
        (initializeStore sampleGen true true false true initState) ≠
      initializeStore sampleGen true true false true initState := by
  decide

/-- C3 amended: `initializeStore` is idempotent whenever the durable tier
was selected (the handle is set: it returns immediately without touching
the durable store), and off the managed platform repeated calls leave the
state unchanged; after an on-platform demotion, however, a later call
re-attempts the durable store and may change the selected mode. -/
theorem initializeStore_idempotent_amended (gen : Nat → String) :
    (∀ (netlify remoteCfg gOk sOk : Bool) (s : ProcState), s.store = true →
      initializeStore gen netlify remoteCfg gOk sOk s = s) ∧
    (∀ (remoteCfg g1 so1 g2 so2 : Bool) (s : ProcState),
      initializeStore gen false remoteCfg g2 so2
          (initializeStore gen false remoteCfg g1 so1 s) =
        initializeStore gen false remoteCfg g1 so1 s) := by
  constructor
  · exact fun _ _ _ _ _ h => initializeStore_of_store h
  · intro remoteCfg g1 so1 g2 so2 s
    cases hstore : s.store
    · have h1 : initializeStore gen false remoteCfg g1 so1 s =
          demoteFromBlob gen remoteCfg s := by
        unfold initializeStore
        rw [hstore]
        rfl
      have h2 : (demoteFromBlob gen remoteCfg s).store = false := by
        rw [demoteFromBlob_store]
        exact hstore
      have h3 : initializeStore gen false remoteCfg g2 so2
          (demoteFromBlob gen remoteCfg s) =
          demoteFromBlob gen remoteCfg (demoteFromBlob gen remoteCfg s) := by
        unfold initializeStore
        rw [h2]
        rfl
      rw [h1, h3, demoteFromBlob_idem]
    · rw [initializeStore_of_store hstore, initializeStore_of_store hstore]

/-- C3 amended witness: immediate return on the initialized blob state,
and off-platform idempotence at a concrete state. -/
theorem initializeStore_idempotent_amended_witness :
    sampleState.store = true ∧
    initializeStore sampleGen true true true true sampleState = sampleState ∧
    initializeStore sampleGen false true true true
        (initializeStore sampleGen false true true true initState) =
      initializeStore sampleGen false true true true initState :=
  ⟨by decide,
    (initializeStore_idempotent_amended sampleGen).1 true true true true sampleState
      (by decide),
    (initializeStore_idempotent_amended sampleGen).2 true true true true true initState⟩

/-- C5: round-trip.  On any well-formed store state without faults,
`create(title)` succeeds with a record carrying that title and
`isDone:false`, and a following `list()` returns the previous sequence
with exactly that record appended at the end (prior records unchanged, in
order); and for any id, after `remove(id)` a following `list()` contains
no record with that id. -/
theorem create_remove_roundtrip (gen : Nat → String) (s : ProcState) (h : WF s)
    (title taskId : String) :
    (∃ t : Task, ∃ s2 : ProcState,
      createTask gen true true true title s = (Except.ok t, s2) ∧
      t.title = title ∧ t.isDone = false ∧
      getTasks gen true true true s2 = (Except.ok (activeTasks s ++ [t]), s2)) ∧
    (∃ s3 : ProcState, ∃ l3 : List Task,
      removeTask gen true true true taskId s = (Except.ok true, s3) ∧
      getTasks gen true true true s3 = (Except.ok l3, s3) ∧
      ∀ t ∈ l3, t.id ≠ taskId) := by
  constructor
  · obtain ⟨t, s2, hc, ht, hd, hact, _, _, hwf⟩ := createTask_wf h title
    refine ⟨t, s2, hc, ht, hd, ?_⟩
    rw [getTasks_wf hwf true, hact]
  · have hw := @removeTask_wf gen s h taskId
    refine ⟨setActive s ((activeTasks s).filter (fun t => t.id ≠ taskId)),
      (activeTasks s).filter (fun t => t.id ≠ taskId), hw, ?_, ?_⟩
    · rw [getTasks_wf (WF_setActive h _) true, activeTasks_setActive]
    · intro t hmem
      simpa using List.of_mem_filter hmem

/-- C5 witness: the round-trip theorem applied to a concrete well-formed
blob-mode state. -/
theorem create_remove_roundtrip_witness :
    WF sampleState ∧
    ((∃ t : Task, ∃ s2 : ProcState,
      createTask sampleGen true true true "hello" sampleState = (Except.ok t, s2) ∧
      t.title = "hello" ∧ t.isDone = false ∧
      getTasks sampleGen true true true s2 =
        (Except.ok (activeTasks sampleState ++ [t]), s2)) ∧
    (∃ s3 : ProcState, ∃ l3 : List Task,
      removeTask sampleGen true true true "abc" sampleState = (Except.ok true, s3) ∧
      getTasks sampleGen true true true s3 = (Except.ok l3, s3) ∧
      ∀ t ∈ l3, t.id ≠ "abc")) :=
  ⟨by decide, create_remove_roundtrip sampleGen sampleState (by decide) "hello" "abc"⟩

/-- C6: no-op on missing id.  On any well-formed store state without
faults, if no stored record carries `taskId`, then `setDone(taskId, d)`
and `remove(taskId)` both report success (`true`) and leave the entire
process state — in particular the stored task sequence — unchanged. -/
theorem noop_on_missing_id (gen : Nat → String) (s : ProcState) (h : WF s)
    (taskId : String) (d : Bool)
    (hid : ∀ t ∈ activeTasks s, t.id ≠ taskId) :
    updateTask gen true true true taskId d s = (Except.ok true, s) ∧
    removeTask gen true true true taskId s = (Except.ok true, s) := by
  constructor
  · rw [updateTask_wf h, map_setDoneFn_eq_self d hid, setActive_self h]
  · rw [removeTask_wf h, filter_ne_eq_self hid, setActive_self h]

/-- C6 witness: the no-op theorem applied at a concrete state and an id
matching no record. -/
theorem noop_on_missing_id_witness :
    WF sampleState ∧ (∀ t ∈ activeTasks sampleState, t.id ≠ "nonexistent") ∧
    (updateTask sampleGen true true true "nonexistent" true sampleState =
        (Except.ok true, sampleState) ∧
      removeTask sampleGen true true true "nonexistent" sampleState =
        (Except.ok true, sampleState)) :=
  ⟨by decide, by decide,
    noop_on_missing_id sampleGen sampleState (by decide) "nonexistent" true (by decide)⟩

/-- The concrete witness supply is injective: distinct indices give
strings of distinct lengths. -/
theorem sampleGen_injective : Function.Injective sampleGen := by
  intro a b hab
  have hd : (String.mk (List.replicate (a + 1) 'a')).data =
      (String.mk (List.replicate (b + 1) 'a')).data := by
    unfold sampleGen at hab
    rw [hab]
  have h1 := congrArg List.length hd
  simp only [List.length_replicate] at h1
  omega

/-- C8: id uniqueness.  For every sequence of operations (creates
interleaved with initializations, lists, updates and removes, under any
fault pattern), starting from any state satisfying the id invariant (such
as the empty or freshly seeded store), the ids of the records
simultaneously present in the active store remain pairwise distinct —
under the hypothesis that the id generator is an injective supply, i.e.
never returns a value already handed out. -/
theorem ids_pairwise_distinct (gen : Nat → String)
    (hg : Function.Injective gen) (s : ProcState) (h : Inv gen s)
    (ops : List Op) :
    (idsOf (activeTasks (run gen ops s))).Nodup := by
  have hinv := run_inv hg ops h
  unfold activeTasks
  split
  · exact hinv.2.2.1
  · split
    · exact hinv.2.1.1
    · exact hinv.1.1

/-- C8 witness: an init followed by two creates from the fresh empty
state, under the concrete injective supply. -/
theorem ids_pairwise_distinct_witness :
    Function.Injective sampleGen ∧ Inv sampleGen initState ∧
    (idsOf (activeTasks (run sampleGen
      [Op.opInit true true true true, Op.opCreate "a" true true true,
       Op.opCreate "b" true true true] initState))).Nodup :=
  ⟨sampleGen_injective,
    ⟨ContOk_nil sampleGen 0, ContOk_nil sampleGen 0, ContOk_nil sampleGen 0⟩,
    ids_pairwise_distinct sampleGen sampleGen_injective initState
      ⟨ContOk_nil sampleGen 0, ContOk_nil sampleGen 0, ContOk_nil sampleGen 0⟩
      [Op.opInit true true true true, Op.opCreate "a" true true true,
       Op.opCreate "b" true true true]⟩

/-- C9: idempotence of `setDone`.  On any well-formed store state without
faults, applying `setDone(taskId, d)` to the state produced by the same
`setDone(taskId, d)` call reports success and produces that very state
again: calling it twice ends in exactly the state of calling it once. -/
theorem setDone_twice_idempotent (gen : Nat → String) (s : ProcState) (h : WF s)
    (taskId : String) (d : Bool) :
    updateTask gen true true true taskId d
        ((updateTask gen true true true taskId d s).2) =
      (Except.ok true, (updateTask gen true true true taskId d s).2) := by
  rw [updateTask_wf h]
  have h1 : WF (setActive s ((activeTasks s).map (setDoneFn taskId d))) :=
    WF_setActive h _
  dsimp only
  rw [updateTask_wf h1, activeTasks_setActive, List.map_map,
    show setDoneFn taskId d ∘ setDoneFn taskId d = setDoneFn taskId d from
      funext (fun t => setDoneFn_idem taskId d t),
    setActive_setActive]

/-- C9 witness: the idempotence theorem applied at a concrete state. -/
theorem setDone_twice_idempotent_witness :
    WF sampleState ∧
    updateTask sampleGen true true true "abc" true
        ((updateTask sampleGen true true true "abc" true sampleState).2) =
      (Except.ok true, (updateTask sampleGen true true true "abc" true sampleState).2) :=
  ⟨by decide, setDone_twice_idempotent sampleGen sampleState (by decide) "abc" true⟩

/-- C10: frame property of `updateTask`.  On any well-formed store state
without faults, the update reports success and relates the old and new
stored sequences pointwise in order (hence same length, same relative
order): every record keeps its id and title, records whose id differs
from `taskId` are entirely unchanged, and records whose id equals
`taskId` change at most their `isDone` field (to `d`). -/
theorem updateTask_frame (gen : Nat → String) (s : ProcState) (h : WF s)
    (taskId : String) (d : Bool) :
    ∃ s2 : ProcState,
      updateTask gen true true true taskId d s = (Except.ok true, s2) ∧
      (activeTasks s2).length = (activeTasks s).length ∧
      List.Forall₂ (fun a b => b.id = a.id ∧ b.title = a.title ∧
          (a.id ≠ taskId → b = a) ∧ (a.id = taskId → b = { a with isDone := d }))
        (activeTasks s) (activeTasks s2) := by
  refine ⟨setActive s ((activeTasks s).map (setDoneFn taskId d)),
    updateTask_wf h taskId d, ?_, ?_⟩
  · rw [activeTasks_setActive]
    exact List.length_map _ _
  · rw [activeTasks_setActive]
    rw [List.forall₂_map_right_iff]
    rw [List.forall₂_same]
    intro x _
    by_cases hx : x.id = taskId
    · refine ⟨?_, ?_, ?_, ?_⟩
      · unfold setDoneFn
        rw [if_pos hx]
      · unfold setDoneFn
        rw [if_pos hx]
      · intro hne
        exact absurd hx hne
      · intro _
        unfold setDoneFn
        rw [if_pos hx]
    · refine ⟨?_, ?_, ?_, ?_⟩
      · unfold setDoneFn
        rw [if_neg hx]
      · unfold setDoneFn
        rw [if_neg hx]
      · intro _
        unfold setDoneFn
        rw [if_neg hx]
      · intro heq
        exact absurd heq hx

/-- C4: seeding.  Starting on the platform from a store state without a
blob handle: if the durable store holds no array, a fault-free
`initializeStore` seeds it and the first `list()` returns exactly the 3
seeded tasks, in order, with titles "walk the dog", "wash dishes",
"drink coffee" and `isDone` values false, false, true; further
`initializeStore` calls leave the seeded store untouched (written at most
once); and if an array already exists the guard prevents any seed write. -/
theorem seed_on_empty_store (gen : Nat → String) (remoteCfg : Bool)
    (s : ProcState) (hstore : s.store = false) :
    (s.blobData = none →
      ∃ l : List Task,
        getTasks gen true true true (initializeStore gen true remoteCfg true true s) =
          (Except.ok l, initializeStore gen true remoteCfg true true s) ∧
        l.length = 3 ∧
        l.map Task.title = ["walk the dog", "wash dishes", "drink coffee"] ∧
        l.map Task.isDone = [false, false, true]) ∧
    (s.blobData = none → ∀ g2 so2 : Bool,
      initializeStore gen true remoteCfg g2 so2
          (initializeStore gen true remoteCfg true true s) =
        initializeStore gen true remoteCfg true true s) ∧
    (∀ l0 : List Task, s.blobData = some l0 →
      (initializeStore gen true remoteCfg true true s).blobData = some l0) := by
  have hseed : ∀ hn : s.blobData = none,
      initializeStore gen true remoteCfg true true s =
        { s with connectAttempted := true, store := true,
                 blobData := some (buildDefaultTasks gen s.ctr).1,
                 ctr := (buildDefaultTasks gen s.ctr).2,
                 storageMode := StorageMode.blob } := by
    intro hn
    unfold initializeStore
    rw [hstore]
    simp only [Bool.not_true, Bool.false_eq_true, if_false, ite_false]
    rw [hn]
  refine ⟨?_, ?_, ?_⟩
  · intro hnone
    rw [hseed hnone]
    refine ⟨(buildDefaultTasks gen s.ctr).1, ?_, rfl, rfl, rfl⟩
    have hwf : WF
        { s with connectAttempted := true, store := true,
                 blobData := some (buildDefaultTasks gen s.ctr).1,
                 ctr := (buildDefaultTasks gen s.ctr).2,
                 storageMode := StorageMode.blob } := by
      refine ⟨by simp, by simp, by simp⟩
    rw [getTasks_wf hwf true]
    rfl
  · intro hnone g2 so2
    rw [hseed hnone]
    exact initializeStore_of_store rfl
  · intro l0 hsome
    unfold initializeStore
    rw [hstore]
    simp only [Bool.not_true, Bool.false_eq_true, if_false, ite_false]
    rw [hsome]

/-- C4 witness: seeding from the fresh process state with an empty durable
store. -/
theorem seed_on_empty_store_witness :
    initState.store = false ∧
    ((initState.blobData = none →
      ∃ l : List Task,
        getTasks sampleGen true true true
            (initializeStore sampleGen true true true true initState) =
          (Except.ok l, initializeStore sampleGen true true true true initState) ∧
        l.length = 3 ∧
        l.map Task.title = ["walk the dog", "wash dishes", "drink coffee"] ∧
        l.map Task.isDone = [false, false, true]) ∧
    (initState.blobData = none → ∀ g2 so2 : Bool,
      initializeStore sampleGen true true g2 so2
          (initializeStore sampleGen true true true true initState) =
        initializeStore sampleGen true true true true initState) ∧
    (∀ l0 : List Task, initState.blobData = some l0 →
      (initializeStore sampleGen true true true true initState).blobData = some l0)) :=
  ⟨by decide, seed_on_empty_store sampleGen true initState (by decide)⟩

/-- C7: validation.  On an initialized state whose blob handle is set (so
`initializeStore` returns immediately), a POST whose parsed body carries a
missing or empty title answers `400` ("please provide title") and leaves
the process state unchanged, and a PATCH carrying a string (non-boolean)
`isDone` answers `400` ("please provide isDone boolean") and leaves the
process state unchanged — in both cases no store operation runs. -/
theorem validation_rejects_bad_input (gen : Nat → String)
    (netlify remoteCfg netOk gOk sOk : Bool) (s : ProcState)
    (hstore : s.store = true) :
    (∀ e : HttpEvent, e.httpMethod = "POST" →
      strTruthy ((e.body.getD ⟨none, JVal.jmissing⟩).title) = false →
      handler gen netlify remoteCfg netOk gOk sOk e s =
        (Except.ok ⟨400, RespBody.msg "please provide title"⟩, s)) ∧
    (∀ e : HttpEvent, ∀ v : String, e.httpMethod = "PATCH" →
      extractTaskId e ≠ "" →
      (e.body.getD ⟨none, JVal.jmissing⟩).isDone = JVal.jstr v →
      handler gen netlify remoteCfg netOk gOk sOk e s =
        (Except.ok ⟨400, RespBody.msg "please provide isDone boolean"⟩, s)) := by
  constructor
  · intro e hm htitle
    unfold handler
    rw [hm, initializeStore_of_store hstore]
    dsimp only
    rw [htitle]
    simp
  · intro e v hm hid hdone
    unfold handler
    rw [hm, initializeStore_of_store hstore]
    dsimp only
    rw [hdone]
    simp [hid]

/-- C7 witness: a POST with an empty title and a PATCH with `isDone:
"yes"` against a concrete initialized state. -/
theorem validation_rejects_bad_input_witness :
    sampleState.store = true ∧
    (HttpEvent.mk "POST" (some ⟨some "", JVal.jmissing⟩) none none none).httpMethod
        = "POST" ∧
    strTruthy (((HttpEvent.mk "POST" (some ⟨some "", JVal.jmissing⟩) none none
        none).body.getD ⟨none, JVal.jmissing⟩).title) = false ∧
    handler sampleGen true true true true true
        (HttpEvent.mk "POST" (some ⟨some "", JVal.jmissing⟩) none none none)
        sampleState =
      (Except.ok ⟨400, RespBody.msg "please provide title"⟩, sampleState) ∧
    extractTaskId (HttpEvent.mk "PATCH" (some ⟨none, JVal.jstr "yes"⟩) none
        (some "abc") none) ≠ "" ∧
    handler sampleGen true true true true true
        (HttpEvent.mk "PATCH" (some ⟨none, JVal.jstr "yes"⟩) none (some "abc") none)
        sampleState =
      (Except.ok ⟨400, RespBody.msg "please provide isDone boolean"⟩, sampleState) :=
  ⟨by decide, rfl, by decide,
    (validation_rejects_bad_input sampleGen true true true true true sampleState
      (by decide)).1
      (HttpEvent.mk "POST" (some ⟨some "", JVal.jmissing⟩) none none none)
      rfl (by decide),
    by decide,
    (validation_rejects_bad_input sampleGen true true true true true sampleState
      (by decide)).2
      (HttpEvent.mk "PATCH" (some ⟨none, JVal.jstr "yes"⟩) none (some "abc") none)
      "yes" rfl (by decide) rfl⟩

/-- C10 witness: the frame theorem applied at a concrete memory-mode
state. -/
theorem updateTask_frame_witness :
    WF sampleMemState ∧
    (∃ s2 : ProcState,
      updateTask sampleGen true true true "abc" true sampleMemState =
        (Except.ok true, s2) ∧
      (activeTasks s2).length = (activeTasks sampleMemState).length ∧
      List.Forall₂ (fun a b => b.id = a.id ∧ b.title = a.title ∧
          (a.id ≠ "abc" → b = a) ∧ (a.id = "abc" → b = { a with isDone := true }))
        (activeTasks sampleMemState) (activeTasks s2)) :=
  ⟨by decide, updateTask_frame sampleGen sampleMemState (by decide) "abc" true⟩

end TaskStore